import Mathlib

/-!
Shallow embedding of the QR time-punch service (`src/main.py`):
the punch ledger (`POST /api/punch`, function `punch`) and the attendance
aggregation / report rendering (`GET /api/export`, function `export_csv`).

Modelling conventions:
* Machine integers are `Int`/`Nat`.  Python's floor division `//` and modulo
  `%` on integers are `Int.fdiv` / `Int.fmod` (both follow the divisor's sign,
  exactly like Python).
* Local timestamps are absolute local seconds (`Int`); the calendar date
  `p.ts.date()` is abstracted to the day index `ts.fdiv 86400` (days of 86400
  seconds).  Date and timestamp rendering (`isoformat`, `strftime`) are modelled
  by injective renderings of (day index, second of day), which is all the
  report logic relies on: equality comparison of dates and display.
* Python truthiness (`if last_emp`, `x or y`) is modelled explicitly
  (`truthyOptStr`, `normJob`, `pyOrInt`).
* Fallible code returns `Except`; the HTTP 404/400 raises of the handler
  become `PunchErr.notFound` / `PunchErr.duplicate`.
-/

/-- Python truthiness of an optional string: `None` and `""` are falsy. -/
def truthyOptStr : Option String → Bool
  | none => false
  | some s => !s.isEmpty

/-- Models Python `x or ""` on an optional job number (`m_number`):
`None` and `""` both normalise to `""`; any other string is itself. -/
def normJob : Option String → String
  | none => ""
  | some s => s

/-- Models Python `a or b` on optional integer ids: `None` and `0` are falsy,
so a present-but-zero `a` still falls back to `b` (main.py lines 180-181). -/
def pyOrInt (a b : Option Int) : Option Int :=
  match a with
  | none => b
  | some v => if v = 0 then b else some v

/-- Day index of an absolute local-seconds timestamp: models
`p.ts.date()` with 86400-second days. -/
def dateOf (ts : Int) : Int := ts.fdiv 86400

/-- Models `p.ts.date().isoformat()` as an injective rendering of the day
index. -/
def dateStr (d : Int) : String := toString d

/-- Models `p.ts.strftime("%Y-%m-%d %H:%M:%S")` as an injective rendering of
(day index, second of day). -/
def tsStr (ts : Int) : String :=
  toString (dateOf ts) ++ " " ++ toString (Int.fmod ts 86400)

/-- Models the duration f-string
`f"{int(delta//3600)}h {int((delta%3600)//60)}m"` (main.py lines 240, 247)
with Python floor division and modulo. -/
def fmtDur (delta : Int) : String :=
  toString (delta.fdiv 3600) ++ "h " ++
    toString ((Int.fmod delta 3600).fdiv 60) ++ "m"

/-- Hundredths of hours: models `round(total_for_day/3600, 2)` (Python rounds
half to even).  The Python value is a float; this rational model agrees with it
on every value arising in this development (whole numbers of hundredths). -/
def roundCents (total : Int) : Int :=
  let n := total * 100
  let q := n.fdiv 3600
  let r := Int.fmod n 3600
  if 2 * r < 3600 then q
  else if 2 * r > 3600 then q + 1
  else if q % 2 = 0 then q else q + 1

/-- Models the TOTAL cell `f"{round(total_for_day/3600,2)}h"` (main.py lines
230, 265): Python's float repr prints the minimal decimal form with at least
one fractional digit (`7.5` → `"7.5"`, `1.0` → `"1.0"`, `0.05` → `"0.05"`). -/
def fmtTotal (total : Int) : String :=
  let c := roundCents total
  let sign := if c < 0 then "-" else ""
  let a := c.natAbs
  let ip := a / 100
  let fr := a % 100
  let fs :=
    if fr % 10 = 0 then toString (fr / 10)
    else if fr < 10 then "0" ++ toString fr
    else toString fr
  sign ++ toString ip ++ "." ++ fs ++ "h"

/-- Models Python `str.lower()` on the ASCII action strings (same value as
`String.toLower`, defined structurally over the character list so that proofs
can evaluate it). -/
def strLower (s : String) : String := ⟨s.data.map Char.toLower⟩

/-- Models Python `str.upper()` on the ASCII action strings (same value as
`String.toUpper`, defined structurally over the character list). -/
def strUpper (s : String) : String := ⟨s.data.map Char.toUpper⟩

/-! ## Data model (SQLAlchemy models, main.py lines 27-63) -/

/-- `class Department`. -/
structure Department where
  id : Int
  name : String
deriving Repr, DecidableEq

/-- `class Location`. -/
structure Location where
  id : Int
  name : String
deriving Repr, DecidableEq

/-- `class Employee`. -/
structure Employee where
  id : Int
  name : String
  department_id : Option Int
  location_id : Option Int
  active : Bool
  qr_code_value : String
deriving Repr, DecidableEq

/-- `class Punch` (one immutable ledger event). -/
structure Punch where
  id : Int
  employee_id : Int
  ts : Int
  action : String
  m_number : Option String
  location_id : Option Int
  department_id : Option Int
  device_label : Option String
  notes : Option String
deriving Repr, DecidableEq

/-- The database state touched by the service: reference data plus the
append-only punch ledger (list order = insertion order = monotonic id). -/
structure Store where
  departments : List Department
  locations : List Location
  employees : List Employee
  punches : List Punch
deriving Repr, DecidableEq

/-- Request schema `class PunchIn` (main.py lines 131-138); pydantic validates
only the field types, the `action` string carries no value constraint. -/
structure PunchIn where
  qr_code_value : String
  action : String := "in"
  m_number : Option String := none
  location_id : Option Int := none
  department_id : Option Int := none
  device_label : Option String := none
  notes : Option String := none
deriving Repr, DecidableEq

/-- The wall clock `now_local()`: local seconds plus a sub-second microsecond
component; `.replace(microsecond=0)` keeps only `seconds`. -/
structure LocalNow where
  seconds : Int
  microsecond : Nat
deriving Repr, DecidableEq

/-- Error outcomes of the punch handler: HTTP 404 "Employee not found" and
HTTP 400 "Duplicate punch" (main.py lines 165, 175). -/
inductive PunchErr where
  | notFound
  | duplicate
deriving Repr, DecidableEq

/-! ## Punch ledger (`punch`, main.py lines 161-186) -/

/-- `db.query(Employee).filter_by(qr_code_value=..., active=True).first()`:
the first active employee whose code matches (the code column is unique). -/
def resolveEmp (st : Store) (qr : String) : Option Employee :=
  st.employees.find? (fun e => e.qr_code_value == qr && e.active)

/-- Fold step selecting the most recent event: maximal timestamp, ties broken
in favour of the later-inserted event (the spec's (employee, timestamp) order
with ties by monotonic id). -/
def chooseLater (acc : Option Punch) (p : Punch) : Option Punch :=
  match acc with
  | none => some p
  | some q => if q.ts ≤ p.ts then some p else some q

/-- `db.query(Punch).filter(Punch.employee_id == emp.id)
.order_by(Punch.ts.desc()).first()` (main.py lines 168-173). -/
def lastEventFor (st : Store) (eid : Int) : Option Punch :=
  (st.punches.filter (fun p => p.employee_id == eid)).foldl chooseLater none

/-- The duplicate condition `last and last.action == payload.action and
(last.m_number or "") == (payload.m_number or "")` (main.py line 174). -/
def dupCheck (last : Option Punch) (pl : PunchIn) : Bool :=
  match last with
  | none => false
  | some l => l.action == pl.action && normJob l.m_number == normJob pl.m_number

/-- Autoincrement primary key for the next punch row. -/
def nextId (st : Store) : Int :=
  (st.punches.foldl (fun m p => max m p.id) 0) + 1

/-- The new event built on success (main.py lines 177-183): timestamp is the
clock truncated to whole seconds, location/department are
`payload.x or emp.x`. -/
def mkEvent (st : Store) (emp : Employee) (pl : PunchIn) (now : LocalNow) :
    Punch :=
  { id := nextId st
    employee_id := emp.id
    ts := now.seconds
    action := pl.action
    m_number := pl.m_number
    location_id := pyOrInt pl.location_id emp.location_id
    department_id := pyOrInt pl.department_id emp.department_id
    device_label := pl.device_label
    notes := pl.notes }

/-- `POST /api/punch` (main.py lines 161-186).  Returns the store after the
request together with the outcome; the error paths raise before `db.add`, so
they return the store unchanged. -/
def punch (st : Store) (pl : PunchIn) (now : LocalNow) :
    Store × Except PunchErr Punch :=
  match resolveEmp st pl.qr_code_value with
  | none => (st, Except.error PunchErr.notFound)
  | some emp =>
    if dupCheck (lastEventFor st emp.id) pl then
      (st, Except.error PunchErr.duplicate)
    else
      let p := mkEvent st emp pl now
      ({ st with punches := st.punches ++ [p] }, Except.ok p)

/-! ## Attendance aggregation and rendering (`export_csv`, main.py 196-272) -/

/-- One CSV row, as the list of its cells (`writer.writerow`). -/
abbrev Row := List String

/-- One record of the export query's join, ordered by
`(Employee.name.asc(), Punch.ts.asc())`: the punch joined with its employee's
name and its department/location names. -/
structure RPunch where
  empName : String
  ts : Int
  deptName : Option String
  locName : Option String
  action : String
  m_number : Option String
deriving Repr, DecidableEq

/-- Join of a stored punch with the reference data, as the export query reads
it (`p.employee.name`, `p.department.name`, `p.location.name`). -/
def toRPunch (st : Store) (p : Punch) : RPunch :=
  { empName := ((st.employees.find? (fun e => e.id == p.employee_id)).map
      (fun e => e.name)).getD ""
    ts := p.ts
    deptName := (p.department_id.bind (fun i =>
      st.departments.find? (fun d => d.id == i))).map (fun d => d.name)
    locName := (p.location_id.bind (fun i =>
      st.locations.find? (fun l => l.id == i))).map (fun l => l.name)
    action := p.action
    m_number := p.m_number }

/-- The joined rows of the whole ledger in insertion order; the export query
additionally sorts by (employee name, timestamp) — the concrete stores used
below are already in that order. -/
def joinRows (st : Store) : List RPunch := st.punches.map (toRPunch st)

/-- The scanner's mutable state (main.py lines 216-217):
`last_emp`, `last_date`, `in_time`, `total_for_day`. -/
structure AggState where
  lastEmp : Option String
  lastDate : Option Int
  inTime : Option Int
  total : Int
deriving Repr, DecidableEq

/-- Initial scanner state: `last_emp, last_date = None, None`;
`in_time, total_for_day = None, 0`. -/
def initAgg : AggState := ⟨none, none, none, 0⟩

/-- `if last_emp and last_emp != emp_name` (main.py line 224). -/
def empChangeB (st : AggState) (p : RPunch) : Bool :=
  truthyOptStr st.lastEmp && (st.lastEmp.getD "" != p.empName)

/-- The value of `last_date` after the employee-change branch (which sets it
to `None`, main.py line 226). -/
def lastDateAfterEmp (st : AggState) (p : RPunch) : Option Int :=
  if empChangeB st p then none else st.lastDate

/-- `if last_date and last_date != punch_date` (main.py line 229), evaluated
after the employee-change branch. -/
def dateChangeB (st : AggState) (p : RPunch) : Bool :=
  (lastDateAfterEmp st p).isSome &&
    !(lastDateAfterEmp st p == some (dateOf p.ts))

/-- The TOTAL row `[last_emp, last_date, "", "", "TOTAL", "", "",
f"{round(total/3600,2)}h"]` (main.py lines 230, 265). -/
def totalRowFor (emp : Option String) (d : Option Int) (total : Int) : Row :=
  [emp.getD "", dateStr (d.getD 0), "", "", "TOTAL", "", "", fmtTotal total]

/-- The `elif` chain on `p.action.lower()` (main.py lines 235-248): returns
the duration string for the row and the new `(in_time, total_for_day)`. -/
def processAction (inTime : Option Int) (total : Int) (act : String)
    (ts : Int) : String × Option Int × Int :=
  let a := strLower act
  if a == "in" then ("", some ts, total)
  else if a == "out" && inTime.isSome then
    let delta := ts - inTime.getD 0
    (fmtDur delta, none, total + delta)
  else if a == "break_in" then ("", some ts, total)
  else if a == "break_out" && inTime.isSome then
    let delta := ts - inTime.getD 0
    ("BREAK " ++ fmtDur delta, none, total)
  else ("", inTime, total)

/-- The per-punch data row (main.py lines 250-259): name, date,
department/location names (empty when absent), uppercased action,
`m_number or ""`, full timestamp, duration string. -/
def punchRowFor (dur : String) (p : RPunch) : Row :=
  [p.empName, dateStr (dateOf p.ts), p.deptName.getD "", p.locName.getD "",
   strUpper p.action, p.m_number.getD "", tsStr p.ts, dur]

/-- One iteration of the export loop (main.py lines 219-261): the rows it
writes, in order, and the state it leaves behind.  `rows1` is the blank row of
the employee-change branch, `rows2` the day-boundary TOTAL row plus its
trailing blank, `res` the result of the action chain. -/
def stepRows (st : AggState) (p : RPunch) : List Row × AggState :=
  let dch := dateChangeB st p
  let rows1 : List Row := if empChangeB st p then [[]] else []
  let rows2 : List Row :=
    if dch then [totalRowFor st.lastEmp (lastDateAfterEmp st p) st.total, []]
    else []
  let total2 : Int := if dch then 0 else st.total
  let inTime2 : Option Int := if dch then none else st.inTime
  let res := processAction inTime2 total2 p.action p.ts
  (rows1 ++ rows2 ++ [punchRowFor res.1 p],
   { lastEmp := some p.empName, lastDate := some (dateOf p.ts),
     inTime := res.2.1, total := res.2.2 })

/-- The export loop over the joined, ordered punches. -/
def aggRows : AggState → List RPunch → List Row × AggState
  | st, [] => ([], st)
  | st, p :: ps =>
    let (rs, st1) := stepRows st p
    let (rs2, st2) := aggRows st1 ps
    (rs ++ rs2, st2)

/-- The title block (main.py lines 202-204): blank row, centered title row,
blank row. -/
def titleRows : List Row :=
  [[], ["", "", "Optimil QR Time Punch System", "", "", ""], []]

/-- The table header (main.py line 207). -/
def headerRow : Row :=
  ["Employee", "Date", "Department", "Location", "Action", "M_Number",
   "Timestamp", "Duration"]

/-- `GET /api/export` (main.py lines 196-272) on an already joined and
(name, ts)-ordered snapshot: title block, header, the loop's rows, and the
final TOTAL row guarded by `if last_emp and last_date` (truthiness). -/
def exportRows (ps : List RPunch) : List Row :=
  let (body, st) := aggRows initAgg ps
  let finalRows : List Row :=
    if truthyOptStr st.lastEmp && st.lastDate.isSome then
      [totalRowFor st.lastEmp st.lastDate st.total]
    else []
  titleRows ++ [headerRow] ++ body ++ finalRows

/-! ## Concrete instances used by the theorems below -/

/-- A joined punch record with no department/location/job, as produced for the
scenario inputs. -/
def rp (n : String) (t : Int) (a : String) : RPunch := ⟨n, t, none, none, a, none⟩

/-- Two employees, sorted by (name, ts): Alice punches `in`, `out`, `in`, then
Bob's first event is an `out` (same day; 09:00 = 32400 s, etc.). -/
def c1Input : List RPunch :=
  [rp "Alice" 32400 "in", rp "Alice" 36000 "out", rp "Alice" 37800 "in",
   rp "Bob" 39600 "out"]

/-- The spec's single-employee single-day scenario:
`[in@09:00, out@12:00, break_in@12:00, break_out@12:30, in@12:30, out@17:00]`. -/
def c3Input : List RPunch :=
  [rp "Emp" 32400 "in", rp "Emp" 43200 "out", rp "Emp" 43200 "break_in",
   rp "Emp" 45000 "break_out", rp "Emp" 45000 "in", rp "Emp" 61200 "out"]

/-- One employee: `break_in@12:00`, `break_out@12:30`, then `out@17:00` with no
intervening `in`. -/
def c4Input : List RPunch :=
  [rp "E" 43200 "break_in", rp "E" 45000 "break_out", rp "E" 61200 "out"]

/-- One employee spanning a day boundary: `in`/`out` on day 0, `in` on day 1
(118800 = 86400 + 32400). -/
def c6Input : List RPunch :=
  [rp "A" 32400 "in", rp "A" 36000 "out", rp "A" 118800 "in"]

/-- The single employee of `st5`. -/
def emp5 : Employee := ⟨1, "Eve", none, none, true, "Q5"⟩

/-- A store with one active employee and no punches, for the malformed-action
submission. -/
def st5 : Store := ⟨[], [], [emp5], []⟩

/-- A punch submission whose action value is not in
`{in, out, break_in, break_out}`. -/
def pl5 : PunchIn := { qr_code_value := "Q5", action := "bogus" }

/-- The event the malformed-action submission appends. -/
def ev5 : Punch := ⟨1, 1, 1000, "bogus", none, none, none, none, none⟩

/-- The single employee of `st9`: department 7, location 5. -/
def emp9 : Employee := ⟨1, "Zed", some 7, some 5, true, "Q9"⟩

/-- A store with one active employee who has a location (5) and department (7)
of their own. -/
def st9 : Store := ⟨[], [], [emp9], []⟩

/-- A submission that supplies the location override `0`. -/
def pl9 : PunchIn := { qr_code_value := "Q9", action := "in", location_id := some 0 }

/-- The event actually stored for `pl9`: the supplied zero override is ignored
and the employee's own location 5 is inherited. -/
def ev9 : Punch := ⟨1, 1, 5000, "in", none, some 5, some 7, none, none⟩

/-- A store with one employee and one `in` punch, for the duplicate check. -/
def st2w : Store := ⟨[], [], [⟨1, "Wu", none, none, true, "Q2"⟩],
  [⟨1, 1, 100, "in", none, none, none, none, none⟩]⟩

/-- The employee of `st2w`. -/
def emp2w : Employee := ⟨1, "Wu", none, none, true, "Q2"⟩

/-- A second `in` submission with the same (absent) job number. -/
def pl2w : PunchIn := { qr_code_value := "Q2", action := "in" }

/-- A store with one active employee and no punches, for the case-sensitivity
scenario. -/
def st10 : Store := ⟨[], [], [⟨1, "Kim", none, none, true, "QK"⟩], []⟩

/-- First submission: lowercase `in`, job "J". -/
def plA : PunchIn := { qr_code_value := "QK", action := "in", m_number := some "J" }

/-- Second submission: uppercase `IN`, same job "J". -/
def plB : PunchIn := { qr_code_value := "QK", action := "IN", m_number := some "J" }

/-- The store after the first (`in`) submission at t = 100. -/
def st10a : Store := (punch st10 plA ⟨100, 0⟩).1

/-- The store after the second (`IN`) submission at t = 200. -/
def st10b : Store := (punch st10a plB ⟨200, 0⟩).1

/-- Scanner state mid-report: previous employee "A" on day 0, idle, total 0 —
the next punch belongs to employee "Bob". -/
def stE : AggState := ⟨some "A", some 0, none, 0⟩

/-- The first punch of the new employee "Bob". -/
def pE : RPunch := rp "Bob" 100 "in"

/-- Scanner state mid-report: employee "A" on day 0 with an open `in` at
32400 s and 3600 s accumulated — the next punch is on day 1. -/
def stD : AggState := ⟨some "A", some 0, some 32400, 3600⟩

/-- The first punch of day 1 for the same employee "A". -/
def pD : RPunch := rp "A" 118800 "in"

/-! ## Helper lemmas -/

/-- The duplicate condition holds exactly when a most recent event exists with
the same action string and the same normalised job number. -/
theorem dupCheck_true_iff (last : Option Punch) (pl : PunchIn) :
    dupCheck last pl = true ↔
      ∃ l, last = some l ∧ l.action = pl.action ∧
        normJob l.m_number = normJob pl.m_number := by
  cases last with
  | none => simp [dupCheck]
  | some l => simp [dupCheck]

/-- Inversion of a successful punch: the employee resolved, the duplicate
check failed, the returned event is `mkEvent`, and the new store is the old
one with that event appended. -/
theorem punch_ok_inv (st : Store) (pl : PunchIn) (now : LocalNow)
    (st1 : Store) (ev : Punch) (h : punch st pl now = (st1, Except.ok ev)) :
    ∃ emp, resolveEmp st pl.qr_code_value = some emp ∧
      dupCheck (lastEventFor st emp.id) pl = false ∧
      ev = mkEvent st emp pl now ∧
      st1 = { st with punches := st.punches ++ [ev] } := by
  unfold punch at h
  split at h
  · simp at h
  · rename_i emp hre
    split at h
    · simp at h
    · rename_i hd
      simp only [Prod.mk.injEq] at h
      obtain ⟨h1, h2⟩ := h
      obtain h2 := Except.ok.inj h2
      exact ⟨emp, hre, by simpa using hd, h2.symm, by rw [← h1, h2]⟩

/-- The fold computing the most recent event only produces events whose
timestamp is within any bound satisfied by the accumulator and the list. -/
theorem foldl_chooseLater_ts_le (t : Int) :
    ∀ (l : List Punch) (acc : Option Punch),
      (∀ q, acc = some q → q.ts ≤ t) → (∀ q ∈ l, q.ts ≤ t) →
      ∀ r, l.foldl chooseLater acc = some r → r.ts ≤ t := by
  intro l
  induction l with
  | nil => intro acc hacc _ r hr; exact hacc r hr
  | cons p ps ih =>
    intro acc hacc hl r hr
    simp only [List.foldl_cons] at hr
    refine ih (chooseLater acc p) ?_ (fun q hq => hl q (List.mem_cons_of_mem _ hq)) r hr
    intro q hq
    cases acc with
    | none =>
      simp only [chooseLater] at hq
      obtain rfl := Option.some.inj hq
      exact hl p (List.mem_cons_self p ps)
    | some q0 =>
      simp only [chooseLater] at hq
      by_cases hle : q0.ts ≤ p.ts
      · rw [if_pos hle] at hq
        obtain rfl := Option.some.inj hq
        exact hl p (List.mem_cons_self p ps)
      · rw [if_neg hle] at hq
        obtain rfl := Option.some.inj hq
        exact hacc q0 rfl

/-- Appending an event whose timestamp is at least every prior timestamp of
the same employee makes it the employee's most recent event. -/
theorem lastEventFor_append (st : Store) (p : Punch) (eid : Int)
    (hid : p.employee_id = eid)
    (hts : ∀ q ∈ st.punches, q.employee_id = eid → q.ts ≤ p.ts) :
    lastEventFor { st with punches := st.punches ++ [p] } eid = some p := by
  unfold lastEventFor
  simp only [List.filter_append]
  have hp : List.filter (fun q => q.employee_id == eid) [p] = [p] := by
    simp [hid]
  rw [hp, List.foldl_append]
  simp only [List.foldl_cons, List.foldl_nil]
  cases hacc : (st.punches.filter (fun q => q.employee_id == eid)).foldl
      chooseLater none with
  | none => rfl
  | some q =>
    have hq : q.ts ≤ p.ts := by
      refine foldl_chooseLater_ts_le p.ts _ none (by simp) ?_ q hacc
      intro r hr
      have hm := List.mem_filter.mp hr
      exact hts r hm.1 (by simpa using hm.2)
    simp [chooseLater, hq]

/-- Characterisation of `punch` once the employee has resolved: it is the
duplicate check followed by the append. -/
theorem punch_eq (st : Store) (pl : PunchIn) (now : LocalNow) (emp : Employee)
    (h : resolveEmp st pl.qr_code_value = some emp) :
    punch st pl now =
      if dupCheck (lastEventFor st emp.id) pl then
        (st, Except.error PunchErr.duplicate)
      else
        ({ st with punches := st.punches ++ [mkEvent st emp pl now] },
          Except.ok (mkEvent st emp pl now)) := by
  unfold punch
  rw [h]

/-- C2: a punch submission for a resolved active employee fails with
`DuplicateError` if and only if the employee's most recent event exists with
the same action string and the same normalised job number; consequently a
second identical submission after a successful one (with a clock that has not
gone backwards) always fails, while changing the job number lets it succeed. -/
theorem punch_duplicate_iff (st : Store) (pl : PunchIn) (now : LocalNow)
    (emp : Employee) (h : resolveEmp st pl.qr_code_value = some emp) :
    ((punch st pl now).2 = Except.error PunchErr.duplicate ↔
      ∃ l, lastEventFor st emp.id = some l ∧ l.action = pl.action ∧
        normJob l.m_number = normJob pl.m_number) ∧
    (∀ st1 ev, punch st pl now = (st1, Except.ok ev) →
      (∀ q ∈ st.punches, q.employee_id = emp.id → q.ts ≤ now.seconds) →
      ∀ now2, (punch st1 pl now2).2 = Except.error PunchErr.duplicate) ∧
    (∀ st1 ev (pl2 : PunchIn), punch st pl now = (st1, Except.ok ev) →
      (∀ q ∈ st.punches, q.employee_id = emp.id → q.ts ≤ now.seconds) →
      pl2.qr_code_value = pl.qr_code_value →
      normJob pl2.m_number ≠ normJob pl.m_number →
      ∀ now2, ∃ st2 ev2, punch st1 pl2 now2 = (st2, Except.ok ev2)) := by
  refine ⟨?_, ?_, ?_⟩
  · rw [punch_eq st pl now emp h]
    cases hd : dupCheck (lastEventFor st emp.id) pl with
    | true =>
      simp only [hd, if_true]
      exact Iff.intro (fun _ => (dupCheck_true_iff _ pl).mp hd) (fun _ => trivial)
    | false =>
      simp only [hd, Bool.false_eq_true, if_false]
      constructor
      · intro hcontra; simp at hcontra
      · intro hex
        rw [(dupCheck_true_iff _ pl).mpr hex] at hd
        simp at hd
  · intro st1 ev hok hts now2
    obtain ⟨emp1, hre1, hd1, hev, hst⟩ := punch_ok_inv st pl now st1 ev hok
    rw [h] at hre1
    obtain rfl := Option.some.inj hre1
    subst hev
    subst hst
    have hres1 : resolveEmp
        { st with punches := st.punches ++ [mkEvent st emp pl now] }
        pl.qr_code_value = some emp := h
    have hlast : lastEventFor
        { st with punches := st.punches ++ [mkEvent st emp pl now] }
        emp.id = some (mkEvent st emp pl now) := by
      refine lastEventFor_append st (mkEvent st emp pl now) emp.id rfl ?_
      intro q hq hqe
      exact hts q hq hqe
    rw [punch_eq _ pl now2 emp hres1, hlast]
    simp [dupCheck, mkEvent]
  · intro st1 ev pl2 hok hts hqr hjob now2
    obtain ⟨emp1, hre1, hd1, hev, hst⟩ := punch_ok_inv st pl now st1 ev hok
    rw [h] at hre1
    obtain rfl := Option.some.inj hre1
    subst hev
    subst hst
    have hres1 : resolveEmp
        { st with punches := st.punches ++ [mkEvent st emp pl now] }
        pl2.qr_code_value = some emp := by
      show resolveEmp st pl2.qr_code_value = some emp
      rw [hqr]
      exact h
    have hlast : lastEventFor
        { st with punches := st.punches ++ [mkEvent st emp pl now] }
        emp.id = some (mkEvent st emp pl now) := by
      refine lastEventFor_append st (mkEvent st emp pl now) emp.id rfl ?_
      intro q hq hqe
      exact hts q hq hqe
    rw [punch_eq _ pl2 now2 emp hres1, hlast]
    have hjb : (normJob (mkEvent st emp pl now).m_number ==
        normJob pl2.m_number) = false := by
      simp only [mkEvent]
      exact beq_eq_false_iff_ne.mpr (Ne.symm hjob)
    have hdc : dupCheck (some (mkEvent st emp pl now)) pl2 = false := by
      simp [dupCheck, hjb]
    rw [hdc]
    simp

/-- Witness for C2 at a concrete store: a second `in` with the same (absent)
job number is rejected as a duplicate. -/
theorem punch_duplicate_iff_witness :
    (punch st2w pl2w ⟨200, 0⟩).2 = Except.error PunchErr.duplicate :=
  (punch_duplicate_iff st2w pl2w ⟨200, 0⟩ emp2w rfl).1.mpr
    ⟨⟨1, 1, 100, "in", none, none, none, none, none⟩, rfl, rfl, rfl⟩

/-- C1 (code bug evaluation): with input sorted by (name, ts) spanning two
employees, Alice's open `in` (37800) and accumulated 3600 s leak into Bob's
scan: Bob's lone `out` row is given the duration `0h 30m` measured from
Alice's open `in`, and Bob's TOTAL row reports `1.5h` although Bob has no
complete interval of his own.  The employee-change branch (main.py lines
224-226) resets neither `in_time` nor `total_for_day`. -/
theorem export_carries_state_across_employee_boundary :
    exportRows c1Input =
      [[], ["", "", "Optimil QR Time Punch System", "", "", ""], [],
       ["Employee", "Date", "Department", "Location", "Action", "M_Number",
        "Timestamp", "Duration"],
       ["Alice", "0", "", "", "IN", "", "0 32400", ""],
       ["Alice", "0", "", "", "OUT", "", "0 36000", "1h 0m"],
       ["Alice", "0", "", "", "IN", "", "0 37800", ""],
       [],
       ["Bob", "0", "", "", "OUT", "", "0 39600", "0h 30m"],
       ["Bob", "0", "", "", "TOTAL", "", "", "1.5h"]] := by
  rfl

/-- C3: the spec's single-employee, single-day scenario produces the rows
with durations `3h 0m`, `BREAK 0h 30m`, `4h 30m` and a TOTAL row of `7.5h`
(the break's 30 minutes are excluded from the 7.5 h total). -/
theorem export_scenario_break_day :
    exportRows c3Input =
      [[], ["", "", "Optimil QR Time Punch System", "", "", ""], [],
       ["Employee", "Date", "Department", "Location", "Action", "M_Number",
        "Timestamp", "Duration"],
       ["Emp", "0", "", "", "IN", "", "0 32400", ""],
       ["Emp", "0", "", "", "OUT", "", "0 43200", "3h 0m"],
       ["Emp", "0", "", "", "BREAK_IN", "", "0 43200", ""],
       ["Emp", "0", "", "", "BREAK_OUT", "", "0 45000", "BREAK 0h 30m"],
       ["Emp", "0", "", "", "IN", "", "0 45000", ""],
       ["Emp", "0", "", "", "OUT", "", "0 61200", "4h 30m"],
       ["Emp", "0", "", "", "TOTAL", "", "", "7.5h"]] := by
  rfl

/-- C4 (counterexample): after `break_in`/`break_out` the scanner is idle, not
working — the `out` that follows with no intervening `in` emits an empty
duration, and the state after the `break_out` holds no open timestamp. -/
theorem break_out_then_out_counterexample :
    ((exportRows c4Input).getD 5 []).getD 7 "X" = "BREAK 0h 30m" ∧
    (aggRows initAgg (List.take 2 c4Input)).2.inTime = none ∧
    ((exportRows c4Input).getD 6 []).getD 7 "X" = "" := by
  exact ⟨rfl, rfl, rfl⟩

/-- C4 (amended): when the open slot holds a timestamp and a `break_out`
arrives, the scanner emits `BREAK` plus the elapsed time, adds nothing to the
day total, and clears the slot (idle) — so a following `out` with no
intervening `in` emits no duration. -/
theorem break_out_clears_slot (t0 total : Int) (act : String) (ts : Int)
    (h : strLower act = "break_out") :
    processAction (some t0) total act ts =
      ("BREAK " ++ fmtDur (ts - t0), none, total) ∧
    (∀ act2 total2 ts2, strLower act2 = "out" →
      processAction none total2 act2 ts2 = ("", none, total2)) := by
  constructor
  · unfold processAction
    rw [h]
    rfl
  · intro act2 total2 ts2 h2
    unfold processAction
    rw [h2]
    rfl

/-- Witness for C4's amended theorem at a concrete break. -/
theorem break_out_clears_slot_witness :
    processAction (some 43200) 0 "break_out" 45000 = ("BREAK 0h 30m", none, 0) := by
  rw [(break_out_clears_slot 43200 0 "break_out" 45000 rfl).1]
  rfl

/-- C5 (counterexample): a punch whose action value `"bogus"` is outside
`{in, out, break_in, break_out}` is not rejected: it succeeds and appends an
event carrying that action. -/
theorem malformed_action_accepted :
    punch st5 pl5 ⟨1000, 0⟩ = ({ st5 with punches := [ev5] }, Except.ok ev5) ∧
    ev5.action = "bogus" := by
  exact ⟨rfl, rfl⟩

/-- C5 (amended): the handler performs no action-value validation — for any
action string whatsoever, once the employee resolves and the duplicate check
does not fire, the submission succeeds and appends an event carrying the
action string verbatim. -/
theorem punch_ignores_action_value (st : Store) (pl : PunchIn) (now : LocalNow)
    (emp : Employee) (h : resolveEmp st pl.qr_code_value = some emp)
    (hd : dupCheck (lastEventFor st emp.id) pl = false) :
    punch st pl now =
      ({ st with punches := st.punches ++ [mkEvent st emp pl now] },
        Except.ok (mkEvent st emp pl now)) ∧
    (mkEvent st emp pl now).action = pl.action := by
  constructor
  · rw [punch_eq st pl now emp h, hd]
    simp
  · rfl

/-- Witness for C5's amended theorem: the `"bogus"` submission of `pl5`. -/
theorem punch_ignores_action_value_witness :
    punch st5 pl5 ⟨1000, 0⟩ =
      ({ st5 with punches := st5.punches ++ [mkEvent st5 emp5 pl5 ⟨1000, 0⟩] },
        Except.ok (mkEvent st5 emp5 pl5 ⟨1000, 0⟩)) ∧
    (mkEvent st5 emp5 pl5 ⟨1000, 0⟩).action = pl5.action :=
  punch_ignores_action_value st5 pl5 ⟨1000, 0⟩ emp5 rfl rfl

/-- C6 (counterexample): in the rendered report for a single employee spanning
a day boundary, both TOTAL rows are immediately preceded by ordinary punch
rows, not by blank separator rows (the blank row follows the day-boundary
TOTAL instead). -/
theorem total_row_not_preceded_by_blank :
    (exportRows c6Input).getD 6 [] = ["A", "0", "", "", "TOTAL", "", "", "1.0h"] ∧
    (exportRows c6Input).getD 5 [] = ["A", "0", "", "", "OUT", "", "0 36000", "1h 0m"] ∧
    (exportRows c6Input).getD 5 [] ≠ ([] : Row) ∧
    (exportRows c6Input).getD 9 [] = ["A", "1", "", "", "TOTAL", "", "", "0.0h"] ∧
    (exportRows c6Input).getD 8 [] = ["A", "1", "", "", "IN", "", "1 32400", ""] ∧
    (exportRows c6Input).getD 8 [] ≠ ([] : Row) := by
  exact ⟨rfl, rfl, by decide, rfl, rfl, by decide⟩

/-- C6 (amended): a blank separator row immediately precedes the single row
emitted for the first punch of a new employee, while a day-boundary TOTAL row
is immediately followed — not preceded — by its blank separator row. -/
theorem separator_row_structure (st : AggState) (p : RPunch) :
    (empChangeB st p = true →
      ∃ r, (stepRows st p).1 = [[], r] ∧ r ≠ ([] : Row)) ∧
    (dateChangeB st p = true →
      ∃ r, (stepRows st p).1 =
        [totalRowFor st.lastEmp st.lastDate st.total, [], r] ∧
        r ≠ ([] : Row)) := by
  constructor
  · intro he
    have hd : dateChangeB st p = false := by
      simp [dateChangeB, lastDateAfterEmp, he]
    refine ⟨punchRowFor (processAction st.inTime st.total p.action p.ts).1 p,
      ?_, ?_⟩
    · simp [stepRows, he, hd]
    · simp [punchRowFor]
  · intro hd
    have he : empChangeB st p = false := by
      cases hec : empChangeB st p with
      | false => rfl
      | true => simp [dateChangeB, lastDateAfterEmp, hec] at hd
    have hld : lastDateAfterEmp st p = st.lastDate := by
      simp [lastDateAfterEmp, he]
    refine ⟨punchRowFor (processAction none 0 p.action p.ts).1 p, ?_, ?_⟩
    · simp [stepRows, he, hd, hld]
    · simp [punchRowFor]

/-- Witness for C6's amended theorem: an employee change (state after "A",
next punch by "Bob") and a day boundary (day 0 to day 1 for "A"). -/
theorem separator_row_structure_witness :
    (∃ r, (stepRows stE pE).1 = [[], r] ∧ r ≠ ([] : Row)) ∧
    (∃ r, (stepRows stD pD).1 =
      [totalRowFor stD.lastEmp stD.lastDate stD.total, [], r] ∧
      r ≠ ([] : Row)) :=
  ⟨(separator_row_structure stE pE).1 rfl,
   (separator_row_structure stD pD).2 rfl⟩

/-- C7: an `out` or `break_out` scanned while no open timestamp is held emits
an empty duration string and leaves the accumulated day total unchanged; the
scan is a total function, so no such row can fail report generation. -/
theorem orphan_close_emits_nothing (total : Int) (act : String) (ts : Int)
    (h : strLower act = "out" ∨ strLower act = "break_out") :
    processAction none total act ts = ("", none, total) := by
  rcases h with h | h <;> (unfold processAction; rw [h]; rfl)

/-- Witness for C7 at a concrete orphan `out`. -/
theorem orphan_close_emits_nothing_witness :
    processAction none 5 "out" 99 = ("", none, 5) :=
  orphan_close_emits_nothing 5 "out" 99 (Or.inl rfl)

/-- C8: a punch submission either appends exactly one event to the ledger,
leaving the departments, locations, employees and all existing events exactly
as they were, or fails (employee not found / duplicate) leaving the whole
store unchanged — there is no partial write. -/
theorem punch_frame_effect (st : Store) (pl : PunchIn) (now : LocalNow) :
    (∃ ev, punch st pl now =
        ({ st with punches := st.punches ++ [ev] }, Except.ok ev)) ∨
    punch st pl now = (st, Except.error PunchErr.notFound) ∨
    punch st pl now = (st, Except.error PunchErr.duplicate) := by
  unfold punch
  cases resolveEmp st pl.qr_code_value with
  | none => right; left; rfl
  | some emp =>
    cases hd : dupCheck (lastEventFor st emp.id) pl with
    | true => right; right; simp [hd]
    | false => left; exact ⟨mkEvent st emp pl now, by simp [hd]⟩

/-- C9 (counterexample): the caller supplies the location override `0`, yet
the stored event inherits the employee's own location 5 — `payload.location_id
or emp.location_id` treats a present-but-zero override as absent. -/
theorem zero_override_ignored :
    pl9.location_id = some 0 ∧
    punch st9 pl9 ⟨5000, 123456⟩ =
      ({ st9 with punches := [ev9] }, Except.ok ev9) ∧
    ev9.location_id = some 5 ∧
    emp9.location_id = some 5 := by
  exact ⟨rfl, rfl, rfl, rfl⟩

/-- C9 (amended): every successful punch stores the clock truncated to whole
seconds (the microsecond component is dropped), and stores the caller's
location/department override exactly when it is present and non-zero —
an absent or zero override falls back to the employee's own value
(Python `or` semantics, main.py lines 177-183). -/
theorem punch_stamp_and_inheritance (st : Store) (pl : PunchIn)
    (now : LocalNow) (st1 : Store) (ev : Punch)
    (h : punch st pl now = (st1, Except.ok ev)) :
    ev.ts = now.seconds ∧
    ∃ emp, resolveEmp st pl.qr_code_value = some emp ∧
      ((pl.location_id = none ∨ pl.location_id = some 0) →
        ev.location_id = emp.location_id) ∧
      (∀ v, pl.location_id = some v → v ≠ 0 → ev.location_id = some v) ∧
      ((pl.department_id = none ∨ pl.department_id = some 0) →
        ev.department_id = emp.department_id) ∧
      (∀ v, pl.department_id = some v → v ≠ 0 → ev.department_id = some v) := by
  obtain ⟨emp, hre, hd, hev, hst⟩ := punch_ok_inv st pl now st1 ev h
  subst hev
  refine ⟨rfl, emp, hre, ?_, ?_, ?_, ?_⟩
  · rintro (h0 | h0) <;> simp [mkEvent, pyOrInt, h0]
  · intro v hv hvz
    simp [mkEvent, pyOrInt, hv, hvz]
  · rintro (h0 | h0) <;> simp [mkEvent, pyOrInt, h0]
  · intro v hv hvz
    simp [mkEvent, pyOrInt, hv, hvz]

/-- Witness for C9's amended theorem: the `pl9` submission (override 0). -/
theorem punch_stamp_and_inheritance_witness :
    ev9.ts = ((⟨5000, 123456⟩ : LocalNow)).seconds ∧
    ∃ emp, resolveEmp st9 pl9.qr_code_value = some emp ∧
      ((pl9.location_id = none ∨ pl9.location_id = some 0) →
        ev9.location_id = emp.location_id) ∧
      (∀ v, pl9.location_id = some v → v ≠ 0 → ev9.location_id = some v) ∧
      ((pl9.department_id = none ∨ pl9.department_id = some 0) →
        ev9.department_id = emp.department_id) ∧
      (∀ v, pl9.department_id = some v → v ≠ 0 → ev9.department_id = some v) :=
  punch_stamp_and_inheritance st9 pl9 ⟨5000, 123456⟩
    ({ st9 with punches := [ev9] }) ev9 rfl

/-- C10: duplicate detection compares action strings case-sensitively while
aggregation compares them case-insensitively: submitting `IN` (job "J")
immediately after `in` (job "J") succeeds — no duplicate rejection — yet the
report renders both rows with the uppercased action `IN`, gives both an empty
duration, and the second `IN` re-opens the interval slot (timestamp 200)
exactly as a lowercase `in` would. -/
theorem action_case_sensitivity :
    (punch st10 plA ⟨100, 0⟩).2 =
      Except.ok ⟨1, 1, 100, "in", some "J", none, none, none, none⟩ ∧
    (punch st10a plB ⟨200, 0⟩).2 =
      Except.ok ⟨2, 1, 200, "IN", some "J", none, none, none, none⟩ ∧
    ((exportRows (joinRows st10b)).getD 4 []).getD 4 "X" = "IN" ∧
    ((exportRows (joinRows st10b)).getD 5 []).getD 4 "X" = "IN" ∧
    ((exportRows (joinRows st10b)).getD 4 []).getD 7 "X" = "" ∧
    ((exportRows (joinRows st10b)).getD 5 []).getD 7 "X" = "" ∧
    (aggRows initAgg (joinRows st10b)).2.inTime = some 200 := by
  exact ⟨rfl, rfl, rfl, rfl, rfl, rfl, rfl⟩
